import Mathlib

/-!
Verification of the suggestion-lifecycle / attribution / persona-feedback core
of the Plotania-lite frontend (`src/my-frontend/src/App.tsx`), shallowly
embedded in Lean.  The rich-text editor is modelled as a plain string document
with integer offsets; `textBetween(a, b)` becomes character-range extraction,
and JS `Math.max`/`Math.round` are modelled exactly on `Int`/`ℚ`.
-/

namespace Plotania

/-! ## String utilities (JS semantics, on `List Char`) -/

/-- Whitespace recognised by JavaScript `String.prototype.trim` (the subset
relevant here: ASCII whitespace plus NBSP and BOM). -/
def jsWhitespace (c : Char) : Bool :=
  c == ' ' || c == '\t' || c == '\n' || c == '\r' ||
  c == Char.ofNat 11 || c == Char.ofNat 12 ||
  c == Char.ofNat 160 || c == Char.ofNat 0xFEFF

/-- JS `s.trim()` on the character list. -/
def trimChars (l : List Char) : List Char :=
  ((l.dropWhile jsWhitespace).reverse.dropWhile jsWhitespace).reverse

/-- JS `s.trim()`. -/
def jsTrim (s : String) : String :=
  String.mk (trimChars s.data)

/-- `editor.state.doc.textBetween(a, b)` on the string document model:
the characters from offset `a` (inclusive) to `b` (exclusive). -/
def extract (s : String) (a b : Nat) : String :=
  String.mk ((s.data.drop a).take (b - a))

/-- Does `big` start with `small`? (helper for substring containment). -/
def startsList : List Char → List Char → Bool
  | _, [] => true
  | [], _ :: _ => false
  | c :: cs, d :: ds => c == d && startsList cs ds

/-- JS `big.includes(small)`: substring containment. -/
def containsList : List Char → List Char → Bool
  | [], small => small.isEmpty
  | c :: cs, small => startsList (c :: cs) small || containsList cs small

/-- JS `big.includes(small)` on strings. -/
def containsStr (big small : String) : Bool :=
  containsList big.data small.data

/-- One pass of JS `fullText.split(/\n{2,}/)`: `acc` is the current paragraph
(reversed), `nl` counts newlines seen but not yet classified.  A run of two or
more newlines is a (greedy) separator; a single newline stays in the text. -/
def splitParasAux (acc : List Char) (nl : Nat) : List Char → List (List Char)
  | [] =>
      if nl ≥ 2 then [acc.reverse, []]
      else [(List.replicate nl '\n' ++ acc).reverse]
  | c :: rest =>
      if c == '\n' then splitParasAux acc (nl + 1) rest
      else if nl ≥ 2 then acc.reverse :: splitParasAux [c] 0 rest
      else splitParasAux (c :: List.replicate nl '\n' ++ acc) 0 rest

/-- JS `fullText.split(/\n{2,}/)`. -/
def splitParas (s : String) : List String :=
  (splitParasAux [] 0 s.data).map String.mk

/-! ## Attribution ledger (Module C state)

`humanChars` / `aiChars` are the two `useState` counters; JS numbers are
modelled as `Int` so that `Math.max(total - aiChars, 0)` is literal. -/

structure Ledger where
  humanChars : Int
  aiChars : Int
  deriving Repr, DecidableEq

/-- JS `Math.max` on two numbers (kernel-computable form). -/
def jsMax (a b : Int) : Int := if a < b then b else a

/-- Initial ledger: `useState(0)` for both counters. -/
def ledgerInit : Ledger := { humanChars := 0, aiChars := 0 }

/-- `handleDocumentChange(fullText)`: reconcile `humanChars` against the new
total length, `setHumanChars(Math.max(total - aiChars, 0))`. -/
def handleDocumentChange (total : Nat) (st : Ledger) : Ledger :=
  { st with humanChars := jsMax ((total : Int) - st.aiChars) 0 }

/-- The ledger update inside `handleAcceptSuggestion`:
`nextAi = prevAi + suggestion.length; humanChars = Math.max(total - nextAi, 0)`
where `total` is the document length after the replacement. -/
def ledgerApplySuggestion (suggestionLen : Nat) (totalAfter : Nat)
    (st : Ledger) : Ledger :=
  let nextAi := st.aiChars + (suggestionLen : Int)
  { humanChars := jsMax ((totalAfter : Int) - nextAi) 0, aiChars := nextAi }

/-- A single ledger mutation: a document-change reconciliation or a
suggestion application (with the document length observed by that call). -/
inductive LedgerMutation where
  | docChange (totalLength : Nat)
  | suggApply (suggestionLen : Nat) (totalAfter : Nat)
  deriving Repr, DecidableEq

/-- The total document character length passed to a mutation. -/
def LedgerMutation.total : LedgerMutation → Nat
  | .docChange t => t
  | .suggApply _ t => t

/-- Run one ledger mutation. -/
def ledgerStep (st : Ledger) : LedgerMutation → Ledger
  | .docChange t => handleDocumentChange t st
  | .suggApply n t => ledgerApplySuggestion n t st

/-- Run a sequence of ledger mutations from a starting state. -/
def ledgerRun (st : Ledger) (ms : List LedgerMutation) : Ledger :=
  ms.foldl ledgerStep st

/-! ## Derived percentages (Module C, `App.tsx` lines 620-623) -/

/-- JS `Math.round` on a rational (nonnegative arguments in all uses here):
round half toward `+∞`.  Stated with the computable `Rat.floor` so concrete
instances evaluate; `jsRound_eq` restates it with `⌊·⌋`. -/
def jsRound (q : ℚ) : Int := (q + 1 / 2).floor

/-- `totalChars = humanChars + aiChars`. -/
def totalChars (st : Ledger) : Int := st.humanChars + st.aiChars

/-- `humanPercent = totalChars === 0 ? 0 : Math.round((humanChars / totalChars) * 100)`. -/
def humanPercent (st : Ledger) : Int :=
  if totalChars st = 0 then 0
  else jsRound ((st.humanChars : ℚ) / (totalChars st : ℚ) * 100)

/-- `aiPercent = totalChars === 0 ? 0 : 100 - humanPercent`. -/
def aiPercent (st : Ledger) : Int :=
  if totalChars st = 0 then 0 else 100 - humanPercent st

/-- The spec's stated formula for the AI percentage
(`aiPercent = round(aiChars / total * 100)` when the total is positive),
written out for comparison with the implementation's `aiPercent`. -/
def aiPercentSpec (st : Ledger) : Int :=
  if totalChars st = 0 then 0
  else jsRound ((st.aiChars : ℚ) / (totalChars st : ℚ) * 100)

/-! ## Persona comments (Module B) -/

inductive PersonaId where
  | ruthless_reviewer
  | emotional_reader
  | stylistic_mentor
  deriving Repr, DecidableEq

inductive PersonaCommentStatus where
  | «open»
  | resolved
  | hidden
  deriving Repr, DecidableEq

structure PersonaComment where
  id : String
  persona : PersonaId
  excerpt : String
  comment : String
  suggestion : String
  status : PersonaCommentStatus
  deriving Repr, DecidableEq

/-- `handleResolveComment(personaId, id)`: map over the collection, setting
`status: "resolved"` on every comment whose `id` matches. -/
def handleResolveComment (personaId : PersonaId) (id : String)
    (prev : List PersonaComment) : List PersonaComment :=
  prev.map (fun c => if c.id == id then { c with status := .resolved } else c)

/-- `handleHideComment(personaId, id)`: map over the collection, setting
`status: "hidden"` on every comment whose `id` matches. -/
def handleHideComment (personaId : PersonaId) (id : String)
    (prev : List PersonaComment) : List PersonaComment :=
  prev.map (fun c => if c.id == id then { c with status := .hidden } else c)

/-- One status-changing UI action on the comment collection. -/
inductive CommentOp where
  | resolveOp (personaId : PersonaId) (id : String)
  | hideOp (personaId : PersonaId) (id : String)
  deriving Repr, DecidableEq

/-- The comment id an operation targets. -/
def CommentOp.target : CommentOp → String
  | .resolveOp _ id => id
  | .hideOp _ id => id

/-- The status an operation writes to matching comments. -/
def CommentOp.writes : CommentOp → PersonaCommentStatus
  | .resolveOp _ _ => .resolved
  | .hideOp _ _ => .hidden

/-- Dispatch one operation to the corresponding handler. -/
def applyCommentOp (cs : List PersonaComment) : CommentOp → List PersonaComment
  | .resolveOp p id => handleResolveComment p id cs
  | .hideOp p id => handleHideComment p id cs

/-- Run a sequence of resolve/hide actions. -/
def runCommentOps (ops : List CommentOp) (cs : List PersonaComment) :
    List PersonaComment :=
  ops.foldl applyCommentOp cs

/-- The last operation in the sequence that targets comment id `cid`
(operations later in the list take precedence). -/
def lastTargeting : List CommentOp → String → Option CommentOp
  | [], _ => none
  | op :: ops, cid =>
      match lastTargeting ops cid with
      | some x => some x
      | none => if op.target == cid then some op else none

/-! ## Suggestion lifecycle (Module A / C) -/

inductive ActionMode where
  | rewrite
  | expand
  | shorten
  | tone
  deriving Repr, DecidableEq

structure AISuggestion where
  original : String
  suggestion : String
  mode : ActionMode
  «from» : Nat
  «to» : Nat
  deriving Repr, DecidableEq

/-- The app state touched by the suggestion lifecycle: the document text
(string model of the editor), the pending suggestion, the two ledger
counters, and editor availability (`editorInstance !== null`). -/
structure AppState where
  doc : String
  aiSuggestion : Option AISuggestion
  humanChars : Int
  aiChars : Int
  editorReady : Bool
  deriving Repr, DecidableEq

/-- Replace `doc[from..to)` by `repl`: the editor chain
`deleteRange({from, to}).setTextSelection(from).insertContent(repl)`. -/
def replaceRange (doc : String) (a b : Nat) (repl : String) : String :=
  String.mk (doc.data.take a ++ repl.data ++ doc.data.drop b)

/-- `handleAcceptSuggestion`: guard on a pending suggestion and a ready
editor; replace the captured range with the suggestion text; add the
suggestion length to `aiChars`; reconcile `humanChars` against the new total
length; clear the pending suggestion. -/
def handleAcceptSuggestion (st : AppState) : AppState :=
  match st.aiSuggestion with
  | none => st
  | some s =>
    if st.editorReady then
      let newText := replaceRange st.doc s.«from» s.«to» s.suggestion
      let total := newText.length
      let nextAi := st.aiChars + (s.suggestion.length : Int)
      { doc := newText
        aiSuggestion := none
        humanChars := jsMax ((total : Int) - nextAi) 0
        aiChars := nextAi
        editorReady := st.editorReady }
    else st

/-- `handleDismissSuggestion`: clear the pending suggestion; the ledger and
the document are untouched. -/
def handleDismissSuggestion (st : AppState) : AppState :=
  { st with aiSuggestion := none }

/-! ## Transform payload builder (Module A) -/

structure TransformPayload where
  action : ActionMode
  selectedText : String
  contextBefore : String
  contextAfter : String
  «from» : Nat
  «to» : Nat
  fullText : String
  deriving Repr, DecidableEq

/-- The `selectedText` resolution in `buildTransformPayload`: the selection
range's text, or the full document when that is empty or whitespace-only. -/
def selectedTextOf (doc : String) (a b : Nat) : String :=
  let sel := extract doc a b
  if (jsTrim sel).isEmpty then doc else sel

/-- The paragraph index found by
`paragraphs.findIndex((p) => p.includes(trimmedSel))`. -/
def paraIdx (doc : String) (a b : Nat) : Option Nat :=
  (splitParas doc).findIdx? (fun p => containsStr p (jsTrim (selectedTextOf doc a b)))

/-- `buildTransformPayload(mode)` on an available editor, as a function of the
document text and the current selection offsets. -/
def buildTransformPayload (mode : ActionMode) (doc : String) (a b : Nat) :
    TransformPayload :=
  let fullText := doc
  let selectedText := selectedTextOf doc a b
  let paragraphs := splitParas fullText
  let ctx : String × String :=
    match paraIdx doc a b with
    | none => ("", "")
    | some i =>
        (if 0 < i then paragraphs.getD (i - 1) "" else "",
         if i + 1 < paragraphs.length then paragraphs.getD (i + 1) "" else "")
  { action := mode
    selectedText := selectedText
    contextBefore := ctx.1
    contextAfter := ctx.2
    «from» := a
    «to» := b
    fullText := fullText }

/-! ## Persona feedback request (`handleGetFeedback`) -/

/-- The JSON values the feedback service can return (after `JSON.parse`
succeeded). -/
inductive Json where
  | null
  | bool (b : Bool)
  | num (n : Int)
  | str (s : String)
  | arr (elems : List Json)
  | obj (fields : List (String × Json))
  deriving Repr

/-- `Array.isArray(data)`. -/
def Json.isArr : Json → Bool
  | .arr _ => true
  | _ => false

/-- JS property lookup `c[key]` on an object (first matching field). -/
def Json.get? (j : Json) (key : String) : Option Json :=
  match j with
  | .obj fields => (fields.find? (fun f => f.1 == key)).map Prod.snd
  | _ => none

/-- `c.field ?? ""` for the string fields of a feedback element. -/
def Json.strFieldD (j : Json) (key : String) : String :=
  match j.get? key with
  | some (.str s) => s
  | _ => ""

/-- Normalize one feedback response into persona comments:
`Array.isArray(data) ? data : []`, then each element becomes a comment with
`status: "open"` and a generated id when the element carries none
(`Math.random` is abstracted as the supplied per-index generator `genId`). -/
def normalizeComments (personaId : PersonaId) (genId : Nat → String)
    (data : Json) : List PersonaComment :=
  let commentsRaw := match data with | .arr xs => xs | _ => []
  (commentsRaw.enum).map (fun ci =>
    { id := match ci.2.get? "id" with
            | some (.str s) => s
            | _ => genId ci.1
      persona := personaId
      excerpt := ci.2.strFieldD "excerpt"
      comment := ci.2.strFieldD "comment"
      suggestion := ci.2.strFieldD "suggestion"
      status := .«open» })

/-- The passage/range resolution at the top of `handleGetFeedback`: the
selection's text, or the full document with range `(1, size)` when the
selection is empty or whitespace-only; `none` when even the fallback passage
is empty or whitespace-only (the "write something first" error path, which
sends no request and remembers no range). -/
def handleGetFeedbackSelection (doc : String) (a b : Nat) :
    Option (String × Nat × Nat) :=
  let fullSize := doc.length
  let sel := extract doc a b
  let resolved : String × Nat × Nat :=
    if (jsTrim sel).isEmpty then (extract doc 0 fullSize, 1, fullSize)
    else (sel, a, b)
  if (jsTrim resolved.1).isEmpty then none else some resolved

/-- The service call outcome: `Except.error` for a non-ok response or a
transport error, `Except.ok` for a parsed JSON body. -/
abbrev FeedbackResponse := Except String Json

/-- The observable result of one `handleGetFeedback` run. -/
structure GetFeedbackResult where
  comments : List PersonaComment
  userMessage : Option String
  lastFeedbackSelection : Option (Nat × Nat)
  resolvedPassage : Option String
  personaLoadingId : Option PersonaId
  deriving Repr, DecidableEq

/-- One full `handleGetFeedback(personaId)` run over the string document
model: resolve the passage (with full-document fallback), fail locally when it
is still empty, otherwise remember the resolved range, send the request, and
on a parsed response append the normalized comments.  `prev` is the comment
collection and `prevSel` the remembered selection before the call; service
errors and the empty-passage error leave the collection unchanged. -/
def runGetFeedback (doc : String) (a b : Nat) (prev : List PersonaComment)
    (personaId : PersonaId) (genId : Nat → String)
    (prevSel : Option (Nat × Nat)) (resp : FeedbackResponse) :
    GetFeedbackResult :=
  match handleGetFeedbackSelection doc a b with
  | none =>
      { comments := prev
        userMessage := some "Please select a passage or write something first."
        lastFeedbackSelection := prevSel
        resolvedPassage := none
        personaLoadingId := none }
  | some (passage, f, t) =>
      match resp with
      | .error _ =>
          { comments := prev
            userMessage := none
            lastFeedbackSelection := some (f, t)
            resolvedPassage := some passage
            personaLoadingId := none }
      | .ok data =>
          { comments := prev ++ normalizeComments personaId genId data
            userMessage := none
            lastFeedbackSelection := some (f, t)
            resolvedPassage := some passage
            personaLoadingId := none }

/-! ## Concrete fixtures used by witnesses and counterexamples -/

/-- Default comment for positional (`getD`) lookups. -/
def dfltComment : PersonaComment :=
  { id := "", persona := .ruthless_reviewer, excerpt := "", comment := "",
    suggestion := "", status := .«open» }

/-- A hidden comment with id `"c1"`. -/
def cHidden : PersonaComment :=
  { id := "c1", persona := .ruthless_reviewer, excerpt := "e", comment := "m",
    suggestion := "s", status := .hidden }

/-- An open comment with id `"a"`. -/
def cOpenA : PersonaComment :=
  { id := "a", persona := .emotional_reader, excerpt := "x", comment := "y",
    suggestion := "z", status := .«open» }

/-- The three-paragraph scenario document from the spec. -/
def docEx : String := "Para one.\n\nPara two.\n\nPara three."

/-- A 100-character document. -/
def doc100 : String := String.mk (List.replicate 100 'a')

/-- The length-20 suggestion over the `(40,50)` selection of `doc100`. -/
def sugg20 : AISuggestion :=
  { original := extract doc100 40 50
    suggestion := String.mk (List.replicate 20 'b')
    mode := .rewrite
    «from» := 40
    «to» := 50 }

/-- App state holding `doc100` with `sugg20` pending and a fresh ledger that
has observed the 100-character document. -/
def stApply : AppState :=
  { doc := doc100, aiSuggestion := some sugg20, humanChars := 100,
    aiChars := 0, editorReady := true }

/-- A 40-character document. -/
def doc40 : String := String.mk (List.replicate 40 'w')

/-! ## Helper lemmas -/

theorem jsMax_eq_max (a b : Int) : jsMax a b = max a b := by
  rw [jsMax, max_def]
  rcases lt_trichotomy a b with h | h | h
  · rw [if_pos h, if_pos h.le]
  · subst h; simp
  · rw [if_neg (not_lt_of_gt h), if_neg (not_le_of_gt h)]

theorem jsRound_eq (q : ℚ) : jsRound q = ⌊q + 1 / 2⌋ :=
  (Rat.floor_def' _).trans Rat.floor_def.symm

/-- Evaluate `jsRound` when the half-shifted argument is a whole integer. -/
theorem jsRound_of_int (q : ℚ) (n : ℤ) (h : q + 1 / 2 = (n : ℚ)) :
    jsRound q = n := by
  rw [jsRound_eq, h, Int.floor_intCast]

example : humanPercent { humanChars := 7, aiChars := 1 } = 88 := by
  rw [humanPercent, if_neg (by decide)]
  exact jsRound_of_int _ 88 (by norm_num [totalChars])

example : aiPercent { humanChars := 7, aiChars := 1 } = 12 := by
  rw [aiPercent, if_neg (by decide), humanPercent, if_neg (by decide),
    jsRound_of_int _ 88 (by norm_num [totalChars])]
  decide

example : aiPercentSpec { humanChars := 7, aiChars := 1 } = 13 := by
  rw [aiPercentSpec, if_neg (by decide)]
  exact jsRound_of_int _ 13 (by norm_num [totalChars])

example : splitParas "a\nb" = ["a\nb"] := by decide
example : splitParas "a\n\nb\n\n\nc" = ["a", "b", "c"] := by decide
example : splitParas "a\n\n" = ["a", ""] := by decide
example : splitParas "" = [""] := by decide
example : jsTrim "  hi\n " = "hi" := by decide
example : containsStr "Para two." "a tw" = true := by decide
example : containsStr "Para two." "xy" = false := by decide
example : extract "hello" 1 3 = "el" := by decide

/-! ## Ledger lemmas -/

/-- Reconciling `humanChars = Math.max(total - A, 0)` against a nonnegative
`aiChars` value `A` yields a nonnegative count summing to `max total A`. -/
theorem reconcile_sum (t : Nat) (A : Int) (hA : 0 ≤ A) :
    0 ≤ jsMax ((t : Int) - A) 0 ∧ jsMax ((t : Int) - A) 0 + A = max (t : Int) A := by
  rw [jsMax_eq_max]
  refine ⟨le_max_right _ 0, ?_⟩
  rw [← max_add_add_right, sub_add_cancel, zero_add]

/-- `aiChars` stays nonnegative across any mutation sequence. -/
theorem ledgerRun_ai_nonneg (ms : List LedgerMutation) (st : Ledger)
    (h : 0 ≤ st.aiChars) : 0 ≤ (ledgerRun st ms).aiChars := by
  induction ms generalizing st with
  | nil => exact h
  | cons m ms ih =>
      rw [ledgerRun, List.foldl_cons]
      cases m with
      | docChange t => exact ih _ h
      | suggApply n t => exact ih _ (add_nonneg h (Int.natCast_nonneg n))

/-- Splitting a run at its last mutation. -/
theorem ledgerRun_append_last (ms : List LedgerMutation) (m : LedgerMutation) :
    ledgerRun ledgerInit (ms ++ [m]) = ledgerStep (ledgerRun ledgerInit ms) m := by
  rw [ledgerRun, List.foldl_append, List.foldl_cons, List.foldl_nil]
  rfl

/-- **C1** (corrected).  The sequence "apply a length-20 suggestion so the
document has 110 characters, then the user deletes down to 5 characters"
leaves `humanChars = 0` and `aiChars = 20`, so `humanChars + aiChars = 20`,
which differs from the total length `5` passed to that last mutation: the
claimed conservation `humanChars + aiChars = totalLength` fails as stated. -/
theorem attribution_conservation_cex :
    (ledgerRun ledgerInit
      [.suggApply 20 110, .docChange 5]).humanChars = 0 ∧
    (ledgerRun ledgerInit
      [.suggApply 20 110, .docChange 5]).aiChars = 20 ∧
    (LedgerMutation.docChange 5).total = 5 ∧
    ¬ ((ledgerRun ledgerInit [.suggApply 20 110, .docChange 5]).humanChars +
       (ledgerRun ledgerInit [.suggApply 20 110, .docChange 5]).aiChars =
       ((LedgerMutation.docChange 5).total : Int)) := by
  decide

/-- **C1** (amended).  After every sequence of ledger mutations both counters
are nonnegative and `humanChars + aiChars = max totalLength aiChars`, where
`totalLength` is the total passed to the last mutation; in particular the
claimed conservation `humanChars + aiChars = totalLength` holds exactly when
`aiChars ≤ totalLength` (it can fail once the document shrinks below the
accumulated `aiChars`, which is never decremented). -/
theorem attribution_conservation (ms : List LedgerMutation) (m : LedgerMutation) :
    0 ≤ (ledgerRun ledgerInit (ms ++ [m])).humanChars ∧
    0 ≤ (ledgerRun ledgerInit (ms ++ [m])).aiChars ∧
    (ledgerRun ledgerInit (ms ++ [m])).humanChars +
      (ledgerRun ledgerInit (ms ++ [m])).aiChars =
      max (m.total : Int) (ledgerRun ledgerInit (ms ++ [m])).aiChars ∧
    ((ledgerRun ledgerInit (ms ++ [m])).aiChars ≤ (m.total : Int) →
      (ledgerRun ledgerInit (ms ++ [m])).humanChars +
        (ledgerRun ledgerInit (ms ++ [m])).aiChars = (m.total : Int)) := by
  have hA : 0 ≤ (ledgerRun ledgerInit ms).aiChars :=
    ledgerRun_ai_nonneg ms ledgerInit le_rfl
  rw [ledgerRun_append_last]
  cases m with
  | docChange t =>
      obtain ⟨h1, h2⟩ := reconcile_sum t (ledgerRun ledgerInit ms).aiChars hA
      refine ⟨h1, hA, h2, fun hle => ?_⟩
      exact h2.trans (max_eq_left hle)
  | suggApply n t =>
      have hA' : 0 ≤ (ledgerRun ledgerInit ms).aiChars + (n : Int) :=
        add_nonneg hA (Int.natCast_nonneg n)
      obtain ⟨h1, h2⟩ := reconcile_sum t _ hA'
      refine ⟨h1, hA', h2, fun hle => ?_⟩
      exact h2.trans (max_eq_left hle)

/-- **C1** witness: one document change to length 10 after applying a
length-20 suggestion at total 110 keeps `aiChars = 20 > 10`, while a plain
document change to 30 satisfies the conservation equation. -/
theorem attribution_conservation_witness :
    (ledgerRun ledgerInit ([] ++ [LedgerMutation.docChange 30])).aiChars ≤
      ((LedgerMutation.docChange 30).total : Int) ∧
    (ledgerRun ledgerInit ([] ++ [LedgerMutation.docChange 30])).humanChars +
      (ledgerRun ledgerInit ([] ++ [LedgerMutation.docChange 30])).aiChars =
      ((LedgerMutation.docChange 30).total : Int) :=
  ⟨by decide,
   (attribution_conservation [] (LedgerMutation.docChange 30)).2.2.2 (by decide)⟩

/-! ## Percentage lemmas -/

/-- **C3** (counterexample).  With `humanChars = 7`, `aiChars = 1` the code
computes `humanPercent = round(87.5) = 88` first and derives
`aiPercent = 100 - 88 = 12`, whereas the claimed formula
`round(aiChars / total * 100) = round(12.5)` gives `13`. -/
theorem percentage_derivation_cex :
    aiPercent { humanChars := 7, aiChars := 1 } = 12 ∧
    aiPercentSpec { humanChars := 7, aiChars := 1 } = 13 ∧
    aiPercent { humanChars := 7, aiChars := 1 } ≠
      aiPercentSpec { humanChars := 7, aiChars := 1 } := by
  have hh : humanPercent { humanChars := 7, aiChars := 1 } = 88 := by
    rw [humanPercent, if_neg (by decide)]
    exact jsRound_of_int _ 88 (by norm_num [totalChars])
  have ha : aiPercent { humanChars := 7, aiChars := 1 } = 12 := by
    rw [aiPercent, if_neg (by decide), hh]
    decide
  have hs : aiPercentSpec { humanChars := 7, aiChars := 1 } = 13 := by
    rw [aiPercentSpec, if_neg (by decide)]
    exact jsRound_of_int _ 13 (by norm_num [totalChars])
  refine ⟨ha, hs, ?_⟩
  rw [ha, hs]
  decide

/-- **C3** (amended).  With `total = humanChars + aiChars > 0`, the code
rounds the *human* share and derives the AI share as its complement:
`humanPercent = round(humanChars / total * 100)` and
`aiPercent = 100 - humanPercent`; equivalently `aiPercent` is the
round-half-*down* of `aiChars / total * 100` (`⌈x - 1/2⌉`), which differs
from the claimed independent round-half-up only at exact `.5` ties.  With
`total = 0` both are `0`. -/
theorem percentage_derivation (st : Ledger) :
    (totalChars st = 0 → humanPercent st = 0 ∧ aiPercent st = 0) ∧
    (totalChars st ≠ 0 →
      humanPercent st = jsRound ((st.humanChars : ℚ) / (totalChars st : ℚ) * 100) ∧
      aiPercent st = 100 - humanPercent st ∧
      aiPercent st = ⌈(st.aiChars : ℚ) / (totalChars st : ℚ) * 100 - 1 / 2⌉) := by
  constructor
  · intro h
    rw [humanPercent, aiPercent, if_pos h, if_pos h]
    exact ⟨rfl, rfl⟩
  · intro h
    refine ⟨by rw [humanPercent, if_neg h], by rw [aiPercent, if_neg h], ?_⟩
    have ht : ((totalChars st : ℚ)) ≠ 0 := Int.cast_ne_zero.mpr h
    rw [aiPercent, if_neg h, humanPercent, if_neg h, jsRound_eq]
    have hh : (st.humanChars : ℚ) = (totalChars st : ℚ) - (st.aiChars : ℚ) := by
      rw [totalChars]
      push_cast
      ring
    rw [hh]
    have hquot : ((totalChars st : ℚ) - st.aiChars) / (totalChars st : ℚ) * 100 =
        100 - (st.aiChars : ℚ) / (totalChars st : ℚ) * 100 := by
      field_simp
      ring
    rw [hquot]
    generalize (st.aiChars : ℚ) / (totalChars st : ℚ) * 100 = a
    have h1 : (100 : ℚ) - a + 1 / 2 = ((100 : ℤ) : ℚ) + (1 / 2 - a) := by
      push_cast
      ring
    have h2 : a - 1 / 2 = -(1 / 2 - a) := by ring
    rw [h1, Int.floor_int_add, h2, Int.ceil_neg]
    omega

/-- **C3** witness: at `humanChars = 7`, `aiChars = 1` the amended
characterisation applies with nonzero total. -/
theorem percentage_derivation_witness :
    totalChars { humanChars := 7, aiChars := 1 } ≠ 0 ∧
    aiPercent { humanChars := 7, aiChars := 1 } =
      100 - humanPercent { humanChars := 7, aiChars := 1 } :=
  ⟨by decide, ((percentage_derivation _).2 (by decide)).2.1⟩

/-- **C5** (confirmed).  For every ledger state with positive total the two
displayed percentages sum to exactly 100 (the AI percentage is defined as the
complement of the human one), and with total zero both are zero. -/
theorem percentage_sum (st : Ledger) :
    (0 < totalChars st → aiPercent st + humanPercent st = 100) ∧
    (totalChars st = 0 → aiPercent st = 0 ∧ humanPercent st = 0) := by
  constructor
  · intro h
    rw [aiPercent, if_neg (by omega)]
    omega
  · intro h
    rw [aiPercent, humanPercent, if_pos h, if_pos h]
    exact ⟨rfl, rfl⟩

/-- **C5** witness: the scenario ledger `humanChars = 90`, `aiChars = 20`. -/
theorem percentage_sum_witness :
    0 < totalChars { humanChars := 90, aiChars := 20 } ∧
    aiPercent { humanChars := 90, aiChars := 20 } +
      humanPercent { humanChars := 90, aiChars := 20 } = 100 :=
  ⟨by decide, (percentage_sum _).1 (by decide)⟩

/-! ## Suggestion lifecycle lemmas -/

/-- Dropping the first block of an append and taking the middle recovers it. -/
theorem drop_take_middle (t rd dr : List Char) :
    ((t ++ rd ++ dr).drop t.length).take rd.length = rd := by
  rw [List.append_assoc, List.drop_left, List.take_left]

/-- Length of a range replacement, for an in-bounds range. -/
theorem replaceRange_length (doc : String) (a b : Nat) (r : String)
    (hab : a ≤ b) (hb : b ≤ doc.length) :
    (replaceRange doc a b r).length = doc.length - (b - a) + r.length := by
  rw [replaceRange]
  show (doc.data.take a ++ r.data ++ doc.data.drop b).length =
    doc.length - (b - a) + r.length
  have hd : doc.length = doc.data.length := rfl
  have hr2 : r.length = r.data.length := rfl
  rw [List.length_append, List.length_append, List.length_take,
    List.length_drop, hd, hr2]
  rw [hd] at hb
  omega

/-- The replaced range of the new document reads back the inserted text. -/
theorem replaceRange_extract (doc : String) (a b : Nat) (r : String)
    (hb : b ≤ doc.length) (ha : a ≤ doc.length) :
    extract (replaceRange doc a b r) a (a + r.length) = r := by
  have hlen : (doc.data.take a).length = a := by
    rw [List.length_take]
    exact Nat.min_eq_left ha
  have key := drop_take_middle (doc.data.take a) r.data (doc.data.drop b)
  rw [hlen] at key
  rw [replaceRange, extract]
  show String.mk (((doc.data.take a ++ r.data ++ doc.data.drop b).drop a).take
    (a + r.length - a)) = r
  rw [Nat.add_sub_cancel_left]
  show String.mk (((doc.data.take a ++ r.data ++ doc.data.drop b).drop a).take
    r.data.length) = r
  rw [key]

/-- **C4** (confirmed).  With a pending suggestion and a ready editor,
`handleAcceptSuggestion` clears the pending suggestion, adds exactly the
suggestion length to `aiChars`, produces a document whose length is the old
length minus the replaced range plus the suggestion length (with the
suggestion text sitting at the captured offset), and reconciles `humanChars`
as `Math.max(newTotal - aiChars, 0)`. -/
theorem apply_postcondition (st : AppState) (s : AISuggestion)
    (hs : st.aiSuggestion = some s) (hr : st.editorReady = true)
    (hab : s.«from» ≤ s.«to») (hb : s.«to» ≤ st.doc.length) :
    (handleAcceptSuggestion st).aiSuggestion = none ∧
    (handleAcceptSuggestion st).aiChars = st.aiChars + (s.suggestion.length : Int) ∧
    (handleAcceptSuggestion st).doc.length =
      st.doc.length - (s.«to» - s.«from») + s.suggestion.length ∧
    (handleAcceptSuggestion st).humanChars =
      jsMax (((handleAcceptSuggestion st).doc.length : Int) -
        (handleAcceptSuggestion st).aiChars) 0 ∧
    extract (handleAcceptSuggestion st).doc s.«from»
      (s.«from» + s.suggestion.length) = s.suggestion := by
  have hred : handleAcceptSuggestion st =
      { doc := replaceRange st.doc s.«from» s.«to» s.suggestion
        aiSuggestion := none
        humanChars := jsMax
          (((replaceRange st.doc s.«from» s.«to» s.suggestion).length : Int) -
            (st.aiChars + (s.suggestion.length : Int))) 0
        aiChars := st.aiChars + (s.suggestion.length : Int)
        editorReady := st.editorReady } := by
    rw [handleAcceptSuggestion, hs]
    simp [hr]
  rw [hred]
  refine ⟨rfl, rfl, replaceRange_length st.doc _ _ _ hab hb, rfl, ?_⟩
  exact replaceRange_extract st.doc _ _ _ hb (hab.trans hb)

/-- **C4** witness: the spec scenario — a length-20 suggestion over the
`(40,50)` selection of a 100-character document with a fresh ledger gives
total 110, `aiChars = 20`, `humanChars = 90`, and no pending suggestion. -/
theorem apply_postcondition_witness :
    (stApply.aiSuggestion = some sugg20 ∧ stApply.editorReady = true ∧
     sugg20.«from» ≤ sugg20.«to» ∧ sugg20.«to» ≤ stApply.doc.length) ∧
    (handleAcceptSuggestion stApply).doc.length = 110 ∧
    (handleAcceptSuggestion stApply).aiChars = 20 ∧
    (handleAcceptSuggestion stApply).humanChars = 90 ∧
    (handleAcceptSuggestion stApply).aiSuggestion = none := by
  have h := apply_postcondition stApply sugg20 rfl rfl (by decide) (by decide)
  refine ⟨⟨rfl, rfl, by decide, by decide⟩, by decide, by decide, by decide, h.1⟩

/-- **C9** (confirmed).  Dismissing a pending suggestion clears it and leaves
the ledger counters and the document text untouched. -/
theorem dismiss_frame (st : AppState) (h : st.aiSuggestion.isSome = true) :
    (handleDismissSuggestion st).aiSuggestion = none ∧
    (handleDismissSuggestion st).humanChars = st.humanChars ∧
    (handleDismissSuggestion st).aiChars = st.aiChars ∧
    (handleDismissSuggestion st).doc = st.doc :=
  ⟨rfl, rfl, rfl, rfl⟩

/-- **C9** witness: dismissing the pending scenario suggestion. -/
theorem dismiss_frame_witness :
    stApply.aiSuggestion.isSome = true ∧
    (handleDismissSuggestion stApply).aiSuggestion = none ∧
    (handleDismissSuggestion stApply).humanChars = stApply.humanChars ∧
    (handleDismissSuggestion stApply).doc = stApply.doc :=
  ⟨rfl, (dismiss_frame stApply rfl).1, (dismiss_frame stApply rfl).2.1,
   (dismiss_frame stApply rfl).2.2.2⟩

/-! ## Comment status lemmas -/

/-- `List.getD` at an in-bounds index. -/
theorem getD_of_lt (cs : List PersonaComment) (i : Nat) (h : i < cs.length) :
    cs.getD i dfltComment = cs[i] := by
  rw [List.getD_eq_getElem?_getD, List.getElem?_eq_getElem h, Option.getD_some]

/-- The per-comment effect of one status operation. -/
def applyOpComment (c : PersonaComment) (op : CommentOp) : PersonaComment :=
  if c.id == op.target then { c with status := op.writes } else c

/-- Each handler is the element-wise map of `applyOpComment`. -/
theorem applyCommentOp_eq_map (cs : List PersonaComment) (op : CommentOp) :
    applyCommentOp cs op = cs.map (fun c => applyOpComment c op) := by
  cases op <;> rfl

/-- A run of status operations acts element-wise on the collection. -/
theorem runCommentOps_eq_map (ops : List CommentOp) (cs : List PersonaComment) :
    runCommentOps ops cs = cs.map (fun c => ops.foldl applyOpComment c) := by
  induction ops generalizing cs with
  | nil =>
      rw [runCommentOps, List.foldl_nil]
      exact (List.map_id' cs).symm
  | cons op ops ih =>
      have h1 : runCommentOps (op :: ops) cs =
          runCommentOps ops (applyCommentOp cs op) := by
        rw [runCommentOps, List.foldl_cons]
        rfl
      rw [h1, ih, applyCommentOp_eq_map, List.map_map]
      rfl

/-- Unfolding `lastTargeting` at a cons. -/
theorem lastTargeting_cons (op : CommentOp) (ops : List CommentOp) (cid : String) :
    lastTargeting (op :: ops) cid =
      (match lastTargeting ops cid with
       | some x => some x
       | none => if op.target == cid then some op else none) := rfl

/-- Status of a single comment after a fold of status operations: the last
operation targeting its id wins; the id itself never changes. -/
theorem foldl_applyOpComment_char (ops : List CommentOp) (c : PersonaComment) :
    (ops.foldl applyOpComment c).id = c.id ∧
    (ops.foldl applyOpComment c).status =
      (match lastTargeting ops c.id with
       | some op => op.writes
       | none => c.status) := by
  induction ops generalizing c with
  | nil => exact ⟨rfl, rfl⟩
  | cons op ops ih =>
      rw [List.foldl_cons]
      obtain ⟨ih1, ih2⟩ := ih (applyOpComment c op)
      have hid : (applyOpComment c op).id = c.id := by
        rw [applyOpComment]
        split <;> rfl
      refine ⟨ih1.trans hid, ?_⟩
      rw [ih2, hid, lastTargeting_cons]
      cases hlt : lastTargeting ops c.id with
      | some x => rfl
      | none =>
          rw [applyOpComment]
          rcases eq_or_ne c.id op.target with hc | hc
          · rw [if_pos (by simp [beq_iff_eq, hc]),
              if_pos (by simp [beq_iff_eq, hc.symm])]
          · rw [if_neg (by simp [beq_iff_eq, hc]),
              if_neg (by simp [beq_iff_eq, Ne.symm hc])]

/-- **C2** (counterexample).  `handleResolveComment` on a *hidden* comment
with a matching id sets its status to `resolved`: hidden is not terminal
under the handler, and resolve is not a no-op on hidden comments. -/
theorem comment_monotonicity_cex :
    cHidden.status = PersonaCommentStatus.hidden ∧
    (handleResolveComment PersonaId.ruthless_reviewer "c1" [cHidden]).map
      PersonaComment.status = [PersonaCommentStatus.resolved] := by
  decide

/-- **C2** (amended).  After any sequence of `handleResolveComment` /
`handleHideComment` calls, a comment's status is the status written by the
*last* call targeting its id (`resolved` for a resolve, `hidden` for a hide),
or its original status when no call targets it; its id and the collection
length are preserved.  Hence `hidden` is terminal only until a later resolve
call targets the comment — the handlers write unconditionally, so
`resolve(id)` on a resolved or hidden comment is *not* a no-op (the UI merely
hides the resolve button for non-open comments). -/
theorem comment_status_lastwrite (ops : List CommentOp)
    (cs : List PersonaComment) (i : Nat) (h : i < cs.length) :
    (runCommentOps ops cs).length = cs.length ∧
    ((runCommentOps ops cs).getD i dfltComment).id =
      (cs.getD i dfltComment).id ∧
    ((runCommentOps ops cs).getD i dfltComment).status =
      (match lastTargeting ops (cs.getD i dfltComment).id with
       | some op => op.writes
       | none => (cs.getD i dfltComment).status) := by
  have hmap := runCommentOps_eq_map ops cs
  have hpos : (runCommentOps ops cs).getD i dfltComment =
      ops.foldl applyOpComment cs[i] := by
    rw [hmap, List.getD_eq_getElem?_getD, List.getElem?_map,
      List.getElem?_eq_getElem h, Option.map_some', Option.getD_some]
  obtain ⟨hcid, hcst⟩ := foldl_applyOpComment_char ops cs[i]
  refine ⟨by rw [hmap, List.length_map], ?_, ?_⟩
  · rw [hpos, getD_of_lt cs i h, hcid]
  · rw [hpos, getD_of_lt cs i h, hcst]

/-- **C2** witness: on an open comment `"a"`, hiding then resolving leaves it
`resolved` — the last write wins. -/
theorem comment_status_lastwrite_witness :
    0 < [cOpenA].length ∧
    ((runCommentOps [CommentOp.hideOp PersonaId.emotional_reader "a",
        CommentOp.resolveOp PersonaId.emotional_reader "a"]
        [cOpenA]).getD 0 dfltComment).status =
      PersonaCommentStatus.resolved := by
  have h := comment_status_lastwrite
    [CommentOp.hideOp PersonaId.emotional_reader "a",
     CommentOp.resolveOp PersonaId.emotional_reader "a"] [cOpenA] 0 (by decide)
  refine ⟨by decide, ?_⟩
  rw [h.2.2]
  decide

/-- **C10** (confirmed).  Both status handlers preserve the collection
length, leave every comment whose id differs from the argument unchanged,
and are a silent no-op on the whole collection when no comment has the given
id. -/
theorem status_change_frame (personaId : PersonaId) (id : String)
    (cs : List PersonaComment) :
    (handleResolveComment personaId id cs).length = cs.length ∧
    (handleHideComment personaId id cs).length = cs.length ∧
    (∀ i, i < cs.length → (cs.getD i dfltComment).id ≠ id →
      (handleResolveComment personaId id cs).getD i dfltComment =
        cs.getD i dfltComment ∧
      (handleHideComment personaId id cs).getD i dfltComment =
        cs.getD i dfltComment) ∧
    ((∀ c ∈ cs, c.id ≠ id) →
      handleResolveComment personaId id cs = cs ∧
      handleHideComment personaId id cs = cs) := by
  refine ⟨by simp [handleResolveComment], by simp [handleHideComment], ?_, ?_⟩
  · intro i hi hne
    rw [getD_of_lt cs i hi] at hne ⊢
    constructor
    · rw [handleResolveComment, List.getD_eq_getElem?_getD, List.getElem?_map,
        List.getElem?_eq_getElem hi, Option.map_some', Option.getD_some,
        if_neg (by simp [beq_iff_eq, hne])]
    · rw [handleHideComment, List.getD_eq_getElem?_getD, List.getElem?_map,
        List.getElem?_eq_getElem hi, Option.map_some', Option.getD_some,
        if_neg (by simp [beq_iff_eq, hne])]
  · intro hall
    constructor
    · rw [handleResolveComment,
        List.map_congr_left
          (fun c hc => if_neg (by simp [beq_iff_eq, hall c hc]))]
      exact List.map_id' cs
    · rw [handleHideComment,
        List.map_congr_left
          (fun c hc => if_neg (by simp [beq_iff_eq, hall c hc]))]
      exact List.map_id' cs

/-- **C10** witness: with ids `"c1"`, `"a"` present and target `"zzz"`
absent, both handlers return the collection unchanged, and the comment at
position 0 is untouched. -/
theorem status_change_frame_witness :
    (0 < [cHidden, cOpenA].length ∧
     (([cHidden, cOpenA].getD 0 dfltComment).id ≠ "zzz")) ∧
    (handleResolveComment PersonaId.stylistic_mentor "zzz"
        [cHidden, cOpenA]).getD 0 dfltComment =
      [cHidden, cOpenA].getD 0 dfltComment ∧
    handleResolveComment PersonaId.stylistic_mentor "zzz" [cHidden, cOpenA] =
      [cHidden, cOpenA] ∧
    handleHideComment PersonaId.stylistic_mentor "zzz" [cHidden, cOpenA] =
      [cHidden, cOpenA] := by
  have h := status_change_frame PersonaId.stylistic_mentor "zzz" [cHidden, cOpenA]
  refine ⟨⟨by decide, by decide⟩, ?_, ?_, ?_⟩
  · exact (h.2.2.1 0 (by decide) (by decide)).1
  · exact (h.2.2.2 (by decide)).1
  · exact (h.2.2.2 (by decide)).2

/-! ## Feedback request lemmas -/

/-- Extracting the whole range gives back the document. -/
theorem extract_zero_length (s : String) : extract s 0 s.length = s := by
  rw [extract]
  show String.mk ((s.data.drop 0).take (s.length - 0)) = s
  rw [List.drop_zero, Nat.sub_zero]
  show String.mk (s.data.take s.data.length) = s
  rw [List.take_length]

/-- **C6** (counterexample).  On an empty document with the empty selection
`(0,0)` the fallback passage is still empty, so `handleGetFeedback` takes the
"write something first" error path: no passage is resolved and no range is
remembered — the claim's "for every document" fails for (whitespace-)empty
documents. -/
theorem feedback_fallback_cex :
    handleGetFeedbackSelection "" 0 0 = none ∧
    (runGetFeedback "" 0 0 [] PersonaId.ruthless_reviewer (fun _ => "gen2")
      none (Except.ok (Json.arr []))).lastFeedbackSelection = none ∧
    ((runGetFeedback "" 0 0 [] PersonaId.ruthless_reviewer (fun _ => "gen2")
      none (Except.ok (Json.arr []))).userMessage).isSome = true := by
  decide

/-- **C6** (amended).  For every document whose text is *not* empty or
whitespace-only, and every empty or whitespace-only selection,
`handleGetFeedback` resolves the passage to the entire document text and
remembers the range `(1, documentLength)` — lower bound 1, not 0 —
whatever the comment collection, id generator, prior remembered range, and
service response are. -/
theorem feedback_fallback (doc : String) (a b : Nat)
    (hsel : (jsTrim (extract doc a b)).isEmpty = true)
    (hdoc : (jsTrim doc).isEmpty = false) :
    handleGetFeedbackSelection doc a b = some (doc, 1, doc.length) ∧
    ∀ (prev : List PersonaComment) (personaId : PersonaId)
      (genId : Nat → String) (prevSel : Option (Nat × Nat))
      (resp : FeedbackResponse),
      (runGetFeedback doc a b prev personaId genId prevSel
        resp).lastFeedbackSelection = some (1, doc.length) ∧
      (runGetFeedback doc a b prev personaId genId prevSel
        resp).resolvedPassage = some doc := by
  have hres : handleGetFeedbackSelection doc a b = some (doc, 1, doc.length) := by
    simp [handleGetFeedbackSelection, hsel, hdoc, extract_zero_length]
  refine ⟨hres, fun prev personaId genId prevSel resp => ?_⟩
  cases resp with
  | error e => simp [runGetFeedback, hres]
  | ok data => simp [runGetFeedback, hres]

/-- **C6** witness: the empty selection `(5,5)` on a 40-character document
resolves to the full document with remembered range `(1,40)`. -/
theorem feedback_fallback_witness :
    ((jsTrim (extract doc40 5 5)).isEmpty = true ∧
     (jsTrim doc40).isEmpty = false) ∧
    handleGetFeedbackSelection doc40 5 5 = some (doc40, 1, 40) ∧
    (runGetFeedback doc40 5 5 [] PersonaId.ruthless_reviewer (fun _ => "gen")
      none (Except.ok (Json.arr []))).lastFeedbackSelection = some (1, 40) := by
  have h := feedback_fallback doc40 5 5 (by decide) (by decide)
  refine ⟨⟨by decide, by decide⟩, ?_, ?_⟩
  · rw [h.1]
    decide
  · rw [(h.2 [] PersonaId.ruthless_reviewer (fun _ => "gen") none
      (Except.ok (Json.arr []))).1]
    decide

/-- **C7** (confirmed).  When the feedback request was actually sent (the
passage resolution succeeded) and the service response parses to a non-array
JSON value, zero comments are appended (the collection is returned
unchanged), no user-facing message is set, and the loading flag is cleared
back to ready. -/
theorem malformed_feedback (doc : String) (a b : Nat)
    (prev : List PersonaComment) (personaId : PersonaId)
    (genId : Nat → String) (prevSel : Option (Nat × Nat)) (data : Json)
    (hsel : (handleGetFeedbackSelection doc a b).isSome = true)
    (harr : data.isArr = false) :
    (runGetFeedback doc a b prev personaId genId prevSel
      (Except.ok data)).comments = prev ∧
    (runGetFeedback doc a b prev personaId genId prevSel
      (Except.ok data)).userMessage = none ∧
    (runGetFeedback doc a b prev personaId genId prevSel
      (Except.ok data)).personaLoadingId = none := by
  obtain ⟨x, hx⟩ := Option.isSome_iff_exists.mp hsel
  obtain ⟨passage, f, t⟩ := x
  have hnorm : normalizeComments personaId genId data = [] := by
    cases data <;> simp_all [normalizeComments, Json.isArr]
  simp [runGetFeedback, hx, hnorm]

/-- **C7** witness: the spec scenario — response `"not an array"` leaves the
one-comment collection unchanged with no error and ready state. -/
theorem malformed_feedback_witness :
    ((handleGetFeedbackSelection "hello" 0 5).isSome = true ∧
     (Json.str "not an array").isArr = false) ∧
    (runGetFeedback "hello" 0 5 [cOpenA] PersonaId.stylistic_mentor
      (fun _ => "id0") none (Except.ok (Json.str "not an array"))).comments =
      [cOpenA] ∧
    (runGetFeedback "hello" 0 5 [cOpenA] PersonaId.stylistic_mentor
      (fun _ => "id0") none
      (Except.ok (Json.str "not an array"))).userMessage = none ∧
    (runGetFeedback "hello" 0 5 [cOpenA] PersonaId.stylistic_mentor
      (fun _ => "id0") none
      (Except.ok (Json.str "not an array"))).personaLoadingId = none := by
  have h := malformed_feedback "hello" 0 5 [cOpenA] PersonaId.stylistic_mentor
    (fun _ => "id0") none (Json.str "not an array") (by decide) (by decide)
  exact ⟨⟨by decide, by decide⟩, h.1, h.2.1, h.2.2⟩

/-! ## Transform payload lemmas -/

/-- **C8** (confirmed).  `buildTransformPayload` splits the document on
blank-line boundaries and takes the paragraphs adjacent to the first
paragraph containing the trimmed selection as context: on the three-paragraph
scenario document with the selection covering "Para two." the context is
("Para one.", "Para three."); in general both contexts are empty when no
paragraph contains the selection, the left (right) context is empty for the
first (last) paragraph, and otherwise each context is the adjacent
paragraph. -/
theorem paragraph_context :
    ((buildTransformPayload ActionMode.rewrite docEx 11 20).selectedText =
        "Para two." ∧
     (buildTransformPayload ActionMode.rewrite docEx 11 20).contextBefore =
        "Para one." ∧
     (buildTransformPayload ActionMode.rewrite docEx 11 20).contextAfter =
        "Para three.") ∧
    (∀ (mode : ActionMode) (doc : String) (a b : Nat),
      paraIdx doc a b = none →
      (buildTransformPayload mode doc a b).contextBefore = "" ∧
      (buildTransformPayload mode doc a b).contextAfter = "") ∧
    (∀ (mode : ActionMode) (doc : String) (a b : Nat),
      paraIdx doc a b = some 0 →
      (buildTransformPayload mode doc a b).contextBefore = "") ∧
    (∀ (mode : ActionMode) (doc : String) (a b : Nat) (i : Nat),
      paraIdx doc a b = some i → i + 1 = (splitParas doc).length →
      (buildTransformPayload mode doc a b).contextAfter = "") ∧
    (∀ (mode : ActionMode) (doc : String) (a b : Nat) (i : Nat),
      paraIdx doc a b = some i → 0 < i →
      (buildTransformPayload mode doc a b).contextBefore =
        (splitParas doc).getD (i - 1) "") ∧
    (∀ (mode : ActionMode) (doc : String) (a b : Nat) (i : Nat),
      paraIdx doc a b = some i → i + 1 < (splitParas doc).length →
      (buildTransformPayload mode doc a b).contextAfter =
        (splitParas doc).getD (i + 1) "") := by
  refine ⟨⟨by decide, by decide, by decide⟩, ?_, ?_, ?_, ?_, ?_⟩
  · intro mode doc a b hidx
    constructor <;> simp [buildTransformPayload, hidx]
  · intro mode doc a b hidx
    simp [buildTransformPayload, hidx]
  · intro mode doc a b i hidx hlast
    have hnot : ¬ (i + 1 < (splitParas doc).length) := by omega
    simp [buildTransformPayload, hidx, hnot]
  · intro mode doc a b i hidx hpos
    simp [buildTransformPayload, hidx, hpos]
  · intro mode doc a b i hidx hlt
    simp [buildTransformPayload, hidx, hlt]

/-- **C8** witness: a selection spanning two paragraphs is contained in no
single paragraph, so both contexts are empty. -/
theorem paragraph_context_witness :
    paraIdx "ab\n\ncd" 0 6 = none ∧
    (buildTransformPayload ActionMode.rewrite "ab\n\ncd" 0 6).contextBefore =
      "" ∧
    (buildTransformPayload ActionMode.rewrite "ab\n\ncd" 0 6).contextAfter =
      "" := by
  have h := (paragraph_context).2.1 ActionMode.rewrite "ab\n\ncd" 0 6 (by decide)
  exact ⟨by decide, h.1, h.2⟩

end Plotania
